import Mathlib

/-!
Verification development for the cli-utils declarative apply engine.

The Go sources are shallowly embedded:
* Go strings are `List Char` so that trimming and splitting are
  structurally recursive and fully computable;
* the `prune` package identifier text form (only its tests are in the
  sources) is modelled from the specification, as marked on each
  definition;
* the task runner loop (`baseRunner.run` in package `taskrunner`) is a
  step function over an explicit state, with the three `select` inputs
  (status channel, task channel, context done) resolved by an explicit
  input trace;
* `Applier.Run` and its helpers from `pkg/apply/applier.go` are direct
  functional translations, with the output event channel represented as
  the produced list of events.
-/

namespace CliUtils

/-! ## Go strings as character lists -/

/-- Go strings, embedded as lists of characters. -/
abbrev GoStr := List Char

/-- Whitespace characters recognised by the surrounding-whitespace trim.
Go's `strings.TrimSpace` trims all Unicode whitespace; the sources' tests
exercise space, tab and newline. -/
def isSpaceChar (c : Char) : Bool :=
  c == ' ' || c == '\t' || c == '\n' || c == '\r'

/-- Drop leading whitespace characters. -/
def trimLeft : GoStr → GoStr
  | [] => []
  | c :: rest => if isSpaceChar c then trimLeft rest else c :: rest

/-- Drop trailing whitespace characters. -/
def trimRight : GoStr → GoStr
  | [] => []
  | c :: rest =>
    match trimRight rest with
    | [] => if isSpaceChar c then [] else [c]
    | r => c :: r

/-- Trim surrounding whitespace, as Go's `strings.TrimSpace`. -/
def trimSpace (s : GoStr) : GoStr := trimRight (trimLeft s)

/-- Split on the underscore field separator, as Go's
`strings.Split(s, "_")`: the empty string yields one empty field. -/
def splitUnderscore : GoStr → List GoStr
  | [] => [[]]
  | c :: rest =>
    if c = '_' then [] :: splitUnderscore rest
    else
      match splitUnderscore rest with
      | [] => [[c]]
      | f :: fs => (c :: f) :: fs

/-- The string contains no underscore. -/
abbrev noU (s : GoStr) : Prop := '_' ∉ s

/-! ## Identifiers (`prune.ObjMetadata`, shared shape with
`object.ObjMetadata`) -/

/-- Group and kind of a resource, as `schema.GroupKind`. -/
structure GroupKind where
  group : GoStr
  kind : GoStr
deriving DecidableEq

/-- `GroupKind.Empty()` from `apimachinery`: both fields empty. -/
def GroupKind.emptyGK (gk : GroupKind) : Bool :=
  gk.group.isEmpty && gk.kind.isEmpty

/-- Trim surrounding whitespace from both fields of a group-kind. -/
def trimGK (gk : GroupKind) : GroupKind :=
  ⟨trimSpace gk.group, trimSpace gk.kind⟩

/-- A resource identifier: {group, kind, namespace, name}.  The Go field
`Namespace` is called `ns` because `namespace` is reserved in Lean. -/
structure ObjMeta where
  ns : GoStr
  name : GoStr
  groupKind : GroupKind
deriving DecidableEq

/-- Modelled from the spec: `createObjMetadata` of the `prune` package is
absent from the sources (only `TestCreateObjMetadata` is present).  Per
the spec and the test expectations it trims surrounding whitespace from
each field and rejects an empty name or an empty group-kind after
trimming. -/
def createObjMetadata (ns name : GoStr) (gk : GroupKind) :
    Except String ObjMeta :=
  if (trimSpace name).isEmpty then
    Except.error "empty name for inventory object"
  else if (trimGK gk).emptyGK then
    Except.error "empty GroupKind for inventory object"
  else
    Except.ok ⟨trimSpace ns, trimSpace name, trimGK gk⟩

/-- The rendered text form `namespace_name_group_kind` produced by
`ObjMetadata.String()`; an empty namespace renders as an empty first
segment. -/
def ObjMeta.toString (m : ObjMeta) : GoStr :=
  m.ns ++ '_' :: (m.name ++ '_' :: (m.groupKind.group ++ '_' :: m.groupKind.kind))

/-- Modelled from the spec: `parseObjMetadata` of the `prune` package is
absent from the sources (only `TestParseObjMetadata` is present).  Per
the spec it splits on underscore into exactly four fields, trims
surrounding whitespace from each field, and rejects when there are not
exactly four fields or when name or group-kind are empty after trim. -/
def parseObjMetadata (s : GoStr) : Except String ObjMeta :=
  match splitUnderscore s with
  | [nsF, nameF, groupF, kindF] => createObjMetadata nsF nameF ⟨groupF, kindF⟩
  | _ => Except.error "unable to decode inventory string"

/-! Validation of the identifier model against the test cases found in
the sources (`TestCreateObjMetadata`, `TestParseObjMetadata`). -/

theorem createObjMetadata_test_cases :
    (createObjMetadata "  \n".toList " test-name\t".toList
        ⟨"apps".toList, "ReplicaSet".toList⟩ =
      Except.ok ⟨[], "test-name".toList, ⟨"apps".toList, "ReplicaSet".toList⟩⟩) ∧
    (ObjMeta.toString ⟨[], "test-name".toList, ⟨"apps".toList, "ReplicaSet".toList⟩⟩ =
      "_test-name_apps_ReplicaSet".toList) ∧
    (createObjMetadata "test-namespace ".toList " test-name\t".toList
        ⟨"apps".toList, "ReplicaSet".toList⟩ =
      Except.ok ⟨"test-namespace".toList, "test-name".toList,
        ⟨"apps".toList, "ReplicaSet".toList⟩⟩) ∧
    (createObjMetadata "test-namespace ".toList " \t".toList
        ⟨"apps".toList, "ReplicaSet".toList⟩ =
      Except.error "empty name for inventory object") ∧
    (createObjMetadata "test-namespace".toList "test-name".toList ⟨[], []⟩ =
      Except.error "empty GroupKind for inventory object") := by
  refine ⟨?_, ?_, ?_, ?_, ?_⟩ <;> rfl

theorem parseObjMetadata_test_cases :
    (parseObjMetadata "_test-name_apps_ReplicaSet\t".toList =
      Except.ok ⟨[], "test-name".toList, ⟨"apps".toList, "ReplicaSet".toList⟩⟩) ∧
    (parseObjMetadata "test-namespace_test-name_apps_Deployment".toList =
      Except.ok ⟨"test-namespace".toList, "test-name".toList,
        ⟨"apps".toList, "Deployment".toList⟩⟩) ∧
    (parseObjMetadata "_test-name_apps".toList =
      Except.error "unable to decode inventory string") := by
  refine ⟨?_, ?_, ?_⟩ <;> rfl

/-! ## Resource status and status-poller events
(`pkg/kstatus/status`, `pkg/kstatus/polling/event`) -/

/-- The per-resource status values. -/
inductive RStatus
  | unknown
  | inProgress
  | current
  | failed
  | terminating
  | notFound
deriving DecidableEq

/-- The kinds of observations the status poller emits
(`pollevent.EventType`). -/
inductive PollEventType
  | resourceUpdateEvent
  | errorEvent
  | completedEvent
  | abortedEvent
deriving DecidableEq

/-- The per-resource payload of a resource-update observation
(`pollevent.ResourceStatus`). -/
structure ResourceStatusInfo where
  identifier : ObjMeta
  status : RStatus
deriving DecidableEq

/-- A status observation (`pollevent.Event`).  `resource` is a pointer
in Go and so may be absent; `errText` models the `Error` field. -/
structure PollEvent where
  eventType : PollEventType
  resource : Option ResourceStatusInfo
  errText : String
deriving DecidableEq

/-! ## Resource descriptors (`resource.Info` as the applier uses it) -/

/-- What the applier reads off a `resource.Info`: its identifier, whether
the resource is namespaced, whether `prune.IsGroupingObject` holds of its
object, and (for the grouping object) the recorded inventory. -/
structure Info where
  meta : ObjMeta
  namespaced : Bool
  isGroupingObject : Bool
  inventory : List ObjMeta
deriving DecidableEq

/-- Errors surfaced by the engine.  `wrapped` models
`errors.WrapPrefix(err, pre, 1)`; `pollingFailed` models
`fmt.Errorf("polling for status failed: %v", err)`. -/
inductive GoError
  | noGroupingObj
  | multipleGroupingObj (templates : List Info)
  | differingNamespaces
  | pollingFailed (msg : String)
  | taskError (msg : String)
  | wrapped (pre : String) (inner : GoError)
deriving DecidableEq

/-! ## Output events (`pkg/apply/event`) -/

/-- Planned action announced by the init event. -/
inductive ActionType
  | applyAction
  | pruneAction
deriving DecidableEq

/-- One group of identifiers with its planned action
(`event.ResourceGroup`). -/
structure ResourceGroup where
  action : ActionType
  identifiers : List ObjMeta
deriving DecidableEq

/-- Sub-type of an apply event (`event.ApplyEventType`). -/
inductive ApplyEventType
  | completed
  | item
deriving DecidableEq

/-- Sub-type of a prune event (`event.PruneEventType`). -/
inductive PruneEventType
  | completed
  | item
deriving DecidableEq

/-- The single output event type (`event.Event`), as a tagged sum over
the `Type` discriminator and the payload that type carries. -/
inductive Event
  | initEvt (groups : List ResourceGroup)
  | applyEvt (sub : ApplyEventType)
  | statusEvt (e : PollEvent)
  | pruneEvt (sub : PruneEventType)
  | errorEvt (err : GoError)
deriving DecidableEq

/-- True only of init events. -/
def Event.isInit : Event → Bool
  | Event.initEvt _ => true
  | _ => false

/-- True only of error events. -/
def Event.isError : Event → Bool
  | Event.errorEvt _ => true
  | _ => false

/-- The prebuilt apply-completed event sent by the second task of every
queue (`event.ApplyEventCompleted`). -/
def applyCompletedEvent : Event := Event.applyEvt ApplyEventType.completed

/-- The prebuilt status-completed event
(`pollevent.CompletedEvent` wrapped as a status event). -/
def statusCompletedEvent : Event :=
  Event.statusEvt ⟨PollEventType.completedEvent, none, ""⟩

/-- The prebuilt prune-completed event (`event.PruneEventCompleted`). -/
def pruneCompletedEvent : Event := Event.pruneEvt PruneEventType.completed

/-! ## Tasks (`pkg/apply/taskrunner`, `pkg/apply/task`) -/

/-- Wait conditions (`taskrunner.Condition`). -/
inductive Condition
  | allCurrent
  | allNotFound
deriving DecidableEq

/-- The closed set of task variants the queue can hold: `task.ApplyTask`,
`taskrunner.WaitTask`, `task.PruneTask` and `task.SendEventTask`. -/
inductive Task
  | applyTask (objs : List Info)
  | waitTask (ids : List ObjMeta) (cond : Condition) (timeout : Nat)
  | pruneTask (objs : List Info)
  | sendEvent (e : Event)
deriving DecidableEq

/-- The check `currentTask.(*WaitTask)` performed by the runner. -/
def isWaitTask : Task → Bool
  | Task.waitTask _ _ _ => true
  | _ => false

/-- Events a task writes to the event channel when it is started.  Only
`SendEventTask.Start` writes its pre-baked event; per-object apply/prune
progress events are out of scope of the runner model. -/
def startEvents : Task → List Event
  | Task.sendEvent e => [e]
  | _ => []

/-! ## Status collector (`taskrunner.resourceStatusCollector`).
Its source file is absent from the sources; the runner loop and the spec
(§4.3) fix its contract. -/

/-- The collector: latest observed status per identifier. -/
abbrev Collector := List (ObjMeta × RStatus)

/-- Modelled from the spec: `newResourceStatusCollector` starts every
identifier in scope at `Unknown`. -/
def newCollector (ids : List ObjMeta) : Collector :=
  ids.map (fun i => (i, RStatus.unknown))

/-- Modelled from the spec: `resourceStatus` overwrites (or inserts) the
entry for the identifier. -/
def collectorObserve (c : Collector) (id : ObjMeta) (s : RStatus) : Collector :=
  if c.any (fun p => p.1 = id) then
    c.map (fun p => if p.1 = id then (id, s) else p)
  else
    c ++ [(id, s)]

/-- Latest status of an identifier; identifiers not in the map are
treated as `Unknown`. -/
def collectorGet (c : Collector) (id : ObjMeta) : RStatus :=
  match c.find? (fun p => p.1 = id) with
  | some p => p.2
  | none => RStatus.unknown

/-- Modelled from the spec: `conditionMet` — for `AllCurrent` every
listed identifier must currently map to `Current`; for `AllNotFound`
every listed identifier must map to `NotFound`. -/
def conditionMet (c : Collector) (ids : List ObjMeta) (cond : Condition) : Bool :=
  match cond with
  | Condition.allCurrent => ids.all (fun i => collectorGet c i = RStatus.current)
  | Condition.allNotFound => ids.all (fun i => collectorGet c i = RStatus.notFound)

/-! ## The runner loop (`baseRunner.run` and `baseRunner.nextTask`,
package `taskrunner`).

The single-goroutine `select` loop is embedded as a step function on an
explicit state.  Its three input channels — the status channel, the task
completion channel and `ctx.Done()` — are resolved by an input trace: one
`LoopInput` per loop iteration, naming which `select` case fired and with
what message.  `WaitTask.complete` and `WaitTask.startAndComplete` post a
nil `TaskResult` to the task channel from the task's side; the model
records that such a post happened (`posted`) and the arrival of the
result is the corresponding later `taskDone` input of the trace. -/

/-- How `nextTask` kicked a task off: `Start`, or the wait-task
short-circuit `startAndComplete`. -/
inductive StartMode
  | normalStart
  | shortCircuit
deriving DecidableEq

/-- One firing of the runner loop's `select`:
a status observation (with `statusClosed` for a closed channel read),
a `TaskResult` on the task channel, or `ctx.Done()`. -/
inductive LoopInput
  | statusEvt (e : PollEvent)
  | statusClosed
  | taskDone (err : Option GoError)
  | ctxDone
deriving DecidableEq

/-- The runner loop's state between `select` iterations. -/
structure RunnerState where
  currentTask : Task
  queue : List Task
  abort : Bool
  abortReason : Option GoError
  doneChOpen : Bool
  collector : Collector
  startLog : List (Task × StartMode)
deriving DecidableEq

/-- `baseRunner.nextTask`: pop the head of the queue (empty queue means
done); a wait task whose condition is already met against the collector
is kicked off with `startAndComplete`, everything else with `Start`.
Also returns the events the started task writes at start. -/
def nextTask (c : Collector) (queue : List Task) :
    Option (Task × StartMode × List Event) × List Task :=
  match queue with
  | [] => (none, [])
  | t :: rest =>
    match t with
    | Task.waitTask ids cond timeout =>
      if conditionMet c ids cond then
        (some (Task.waitTask ids cond timeout, StartMode.shortCircuit, []), rest)
      else
        (some (Task.waitTask ids cond timeout, StartMode.normalStart, []), rest)
    | _ => (some (t, StartMode.normalStart, startEvents t), rest)

/-- Result of one loop iteration: continue with a new state (emitting
`evts` on the event channel; `posted` records whether a wait-task
completion was posted to the task channel during the iteration), or
return from `run` with `err`. -/
inductive StepOut
  | cont (st : RunnerState) (evts : List Event) (posted : Bool)
  | finished (err : Option GoError)
deriving DecidableEq

/-- One iteration of the `select` loop of `baseRunner.run`
(src/unnamed/part_000, lines 143–219). -/
def runStep (st : RunnerState) (inp : LoopInput) : StepOut :=
  match inp with
  | LoopInput.statusClosed =>
    -- `!ok`: a closed status channel is ignored.
    StepOut.cont st [] false
  | LoopInput.statusEvt e =>
    if st.abort then
      -- While preparing to abort, all status events are ignored.
      StepOut.cont st [] false
    else if e.eventType = PollEventType.errorEvent then
      -- Poller error: set the abort state with the wrapped reason and
      -- force-complete the current task if it is a wait task.
      StepOut.cont
        { st with abort := true,
                  abortReason := some (GoError.pollingFailed e.errText) }
        [] (isWaitTask st.currentTask)
    else
      -- Forward the event, update the collector, and complete a current
      -- wait task whose condition is now met.
      let c := match e.resource with
        | some r => collectorObserve st.collector r.identifier r.status
        | none => st.collector
      let posted := match st.currentTask with
        | Task.waitTask ids cond _ => conditionMet c ids cond
        | _ => false
      StepOut.cont { st with collector := c } [Event.statusEvt e] posted
  | LoopInput.taskDone msgErr =>
    match msgErr with
    | some e => StepOut.finished (some e)
    | none =>
      if st.abort then
        StepOut.finished st.abortReason
      else
        match nextTask st.collector st.queue with
        | (none, _) => StepOut.finished none
        | (some (t, mode, evts), rest) =>
          StepOut.cont
            { st with currentTask := t, queue := rest,
                      startLog := st.startLog ++ [(t, mode)] }
            evts (mode = StartMode.shortCircuit)
  | LoopInput.ctxDone =>
    if st.doneChOpen then
      -- Set the done channel to nil, set the abort flag, and
      -- force-complete a current wait task; the stored abort reason is
      -- left untouched.
      StepOut.cont { st with doneChOpen := false, abort := true } []
        (isWaitTask st.currentTask)
    else
      -- A nil channel never fires again.
      StepOut.cont st [] false

/-- Accumulated result of running the loop over an input trace.
`outcome = none` means the inputs ran out with the loop still inside its
`select` (in particular: still waiting for the current task); otherwise
`outcome = some err` is what `run` returned.  `posts` counts wait-task
completions posted, `final` is the loop state when the trace ended. -/
structure LoopResult where
  events : List Event
  posts : Nat
  outcome : Option (Option GoError)
  final : Option RunnerState
deriving DecidableEq

/-- Fold `runStep` over an input trace. -/
def runLoop (st : RunnerState) : List LoopInput → LoopResult
  | [] => ⟨[], 0, none, some st⟩
  | inp :: rest =>
    match runStep st inp with
    | StepOut.finished err => ⟨[], 0, some err, some st⟩
    | StepOut.cont st2 evts posted =>
      let r := runLoop st2 rest
      ⟨evts ++ r.events, (if posted then 1 else 0) + r.posts, r.outcome, r.final⟩

/-- `baseRunner.run`: pop and start the first task (an empty queue
returns nil immediately), then run the `select` loop over the trace. -/
def baseRunnerRun (c : Collector) (queue : List Task)
    (inputs : List LoopInput) : LoopResult :=
  match nextTask c queue with
  | (none, _) => ⟨[], 0, some none, none⟩
  | (some (t, mode, evts), rest) =>
    let st : RunnerState := ⟨t, rest, false, none, true, c, [(t, mode)]⟩
    let r := runLoop st inputs
    ⟨evts ++ r.events, (if mode = StartMode.shortCircuit then 1 else 0) + r.posts,
     r.outcome, r.final⟩

/-! ## The applier (`pkg/apply/applier.go`) -/

/-- The applier inputs the task-queue construction depends on:
`a.StatusOptions.wait`, `a.StatusOptions.Timeout` and `a.NoPrune`. -/
structure ApplierConfig where
  wait : Bool
  timeout : Nat
  noPrune : Bool
deriving DecidableEq

/-- `splitInfos`: split the read infos into the plain resources and the
grouping-object templates, both in input order. -/
def splitInfos (infos : List Info) : List Info × List Info :=
  (infos.filter (fun i => !i.isGroupingObject),
   infos.filter (fun i => i.isGroupingObject))

/-- `validateNamespace`'s loop: cluster-scoped resources are ignored; the
first namespaced resource fixes the namespace and any different namespace
fails. -/
def validateNamespaceAux : List Info → GoStr → Bool
  | [], _ => true
  | info :: rest, current =>
    if info.namespaced then
      let current2 := if current = [] then info.meta.ns else current
      if current2 ≠ info.meta.ns then false
      else validateNamespaceAux rest current2
    else validateNamespaceAux rest current

/-- `validateNamespace`: true iff all namespaced infos share one
namespace. -/
def validateNamespace (infos : List Info) : Bool :=
  validateNamespaceAux infos []

/-- Modelled from the spec: `prune.CreateGroupingObj` is absent from the
sources.  Per the spec it turns the unique grouping-object template into
the grouping object whose payload records the identifiers of the
non-grouping resources. -/
def createGroupingObj (template : Info) (resources : List Info) : Info :=
  { template with inventory := resources.map Info.meta }

/-- `Applier.readAndPrepareObjects`: read the infos, require exactly one
grouping-object template, create the grouping object, order the plain
resources, require a single namespace, and return the grouping object
first.  `getObjects` stands for `a.ApplyOptions.GetObjects()` and
`sortResources` for `sort.Sort(ResourceInfos(resources))`, whose
comparator is not among the sources. -/
def readAndPrepareObjects (sortResources : List Info → List Info)
    (getObjects : Except GoError (List Info)) : Except GoError (List Info) :=
  match getObjects with
  | Except.error e => Except.error e
  | Except.ok infos =>
    match (splitInfos infos).2 with
    | [] => Except.error GoError.noGroupingObj
    | g1 :: g2 :: gs => Except.error (GoError.multipleGroupingObj (g1 :: g2 :: gs))
    | [got] =>
      let groupingObject := createGroupingObj got (splitInfos infos).1
      let resources := sortResources (splitInfos infos).1
      if !(validateNamespace resources) then
        Except.error GoError.differingNamespaces
      else
        Except.ok (groupingObject :: resources)

/-- `infosToObjMetas`: the lightweight identifier of every info, in
order. -/
def infosToObjMetas (infos : List Info) : List ObjMeta :=
  infos.map Info.meta

/-- `Applier.buildTaskQueue`: the fixed construction rule.  The Go
function fills a buffered channel of capacity `len(tasks)` before
returning, so the queue is fixed before execution starts; the model
returns the list. -/
def buildTaskQueue (a : ApplierConfig) (infos : List Info)
    (identifiers : List ObjMeta) : List Task :=
  let tasks : List Task :=
    [Task.applyTask infos, Task.sendEvent applyCompletedEvent]
  let tasks :=
    if a.wait then
      tasks ++ [Task.waitTask identifiers Condition.allCurrent a.timeout,
                Task.sendEvent statusCompletedEvent]
    else tasks
  let tasks :=
    if !a.noPrune then
      tasks ++ [Task.pruneTask infos, Task.sendEvent pruneCompletedEvent]
    else tasks
  tasks

/-- `Applier.Run`: the sequence of events the run's goroutine writes to
the output channel before `defer close(eventChannel)` closes it.  On a
preparation error only the wrapped error event is emitted; otherwise the
init event is emitted, the task queue is executed by the runner over the
input trace, and a runner error is emitted as a final error event. -/
def applierRun (sortResources : List Info → List Info)
    (getObjects : Except GoError (List Info)) (cfg : ApplierConfig)
    (inputs : List LoopInput) : List Event :=
  match readAndPrepareObjects sortResources getObjects with
  | Except.error e =>
    [Event.errorEvt (GoError.wrapped "error reading resources" e)]
  | Except.ok infos =>
    let identifiers := infosToObjMetas infos
    let queue := buildTaskQueue cfg infos identifiers
    let r := baseRunnerRun (newCollector identifiers) queue inputs
    Event.initEvt [⟨ActionType.applyAction, identifiers⟩] ::
      (r.events ++
        match r.outcome with
        | some (some e) => [Event.errorEvt e]
        | _ => [])

/-! ## Lemmas about trimming and splitting -/

/-- The head, when present, is not a whitespace character. -/
def headNotSpace : GoStr → Prop
  | [] => True
  | c :: _ => isSpaceChar c = false

theorem trimLeft_headNotSpace (s : GoStr) : headNotSpace (trimLeft s) := by
  induction s with
  | nil => trivial
  | cons c rest ih =>
    cases h : isSpaceChar c
    · simp [trimLeft, h, headNotSpace]
    · simpa [trimLeft, h] using ih

theorem trimLeft_of_headNotSpace (s : GoStr) (h : headNotSpace s) :
    trimLeft s = s := by
  cases s with
  | nil => rfl
  | cons c rest =>
    simp only [headNotSpace] at h
    simp [trimLeft, h]

theorem headNotSpace_trimRight (s : GoStr) (h : headNotSpace s) :
    headNotSpace (trimRight s) := by
  cases s with
  | nil => trivial
  | cons c rest =>
    simp only [headNotSpace] at h
    cases htr : trimRight rest with
    | nil => simp [trimRight, htr, h, headNotSpace]
    | cons d ds => simp [trimRight, htr, headNotSpace, h]

theorem trimRight_idem (s : GoStr) : trimRight (trimRight s) = trimRight s := by
  induction s with
  | nil => rfl
  | cons c rest ih =>
    cases htr : trimRight rest with
    | nil =>
      cases hsc : isSpaceChar c
      · simp [trimRight, htr, hsc]
      · simp [trimRight, htr, hsc]
    | cons d ds =>
      rw [htr] at ih
      have h1 : trimRight (c :: rest) =
          match trimRight rest with
          | [] => if isSpaceChar c then [] else [c]
          | r => c :: r := rfl
      rw [h1, htr]
      show trimRight (c :: d :: ds) = c :: d :: ds
      have h2 : trimRight (c :: d :: ds) =
          match trimRight (d :: ds) with
          | [] => if isSpaceChar c then [] else [c]
          | r => c :: r := rfl
      rw [h2, ih]

theorem trimSpace_idem (s : GoStr) : trimSpace (trimSpace s) = trimSpace s := by
  unfold trimSpace
  rw [trimLeft_of_headNotSpace _
        (headNotSpace_trimRight _ (trimLeft_headNotSpace s)),
      trimRight_idem]

theorem mem_trimLeft {a : Char} {s : GoStr} (h : a ∈ trimLeft s) : a ∈ s := by
  induction s with
  | nil => simp [trimLeft] at h
  | cons c rest ih =>
    cases hsc : isSpaceChar c
    · rw [trimLeft, hsc] at h
      simpa using h
    · rw [trimLeft, hsc] at h
      simp only [if_true] at h
      exact List.mem_cons_of_mem c (ih h)

theorem mem_trimRight {a : Char} {s : GoStr} (h : a ∈ trimRight s) : a ∈ s := by
  induction s with
  | nil => simp [trimRight] at h
  | cons c rest ih =>
    cases htr : trimRight rest with
    | nil =>
      rw [trimRight, htr] at h
      cases hsc : isSpaceChar c <;> rw [hsc] at h <;> simp at h
      · simp [h]
    | cons d ds =>
      rw [trimRight, htr] at h
      rcases List.mem_cons.mp h with h1 | h2
      · simp [h1]
      · exact List.mem_cons_of_mem c (ih (htr ▸ h2))

theorem noU_trimSpace {s : GoStr} (h : noU s) : noU (trimSpace s) :=
  fun hm => h (mem_trimLeft (mem_trimRight hm))

theorem splitUnderscore_ne_nil (s : GoStr) : splitUnderscore s ≠ [] := by
  cases s with
  | nil => simp [splitUnderscore]
  | cons c rest =>
    by_cases h : c = '_'
    · simp [splitUnderscore, h]
    · cases hr : splitUnderscore rest with
      | nil => simp [splitUnderscore, h, hr]
      | cons f fs => simp [splitUnderscore, h, hr]

theorem splitUnderscore_of_noU (s : GoStr) (h : noU s) :
    splitUnderscore s = [s] := by
  induction s with
  | nil => rfl
  | cons c rest ih =>
    have hc : ¬ c = '_' := by
      intro hc; subst hc; exact h (List.mem_cons_self _ _)
    have h2 : noU rest := fun hm => h (List.mem_cons_of_mem c hm)
    simp [splitUnderscore, hc, ih h2]

theorem splitUnderscore_append (a b : GoStr) (h : noU a) :
    splitUnderscore (a ++ '_' :: b) = a :: splitUnderscore b := by
  induction a with
  | nil => simp [splitUnderscore]
  | cons c a2 ih =>
    have hc : ¬ c = '_' := by
      intro hc; subst hc; exact h (List.mem_cons_self _ _)
    have h2 : noU a2 := fun hm => h (List.mem_cons_of_mem c hm)
    have hi := ih h2
    cases hr : splitUnderscore (a2 ++ '_' :: b) with
    | nil => exact absurd hr (splitUnderscore_ne_nil _)
    | cons f fs =>
      rw [hr] at hi
      simp only [List.cons_injective, List.cons.injEq] at hi
      simp [splitUnderscore, hc, hr, hi.1, hi.2]

theorem splitUnderscore_cons_ne (c : Char) (rest : GoStr) (hc : ¬ c = '_')
    (f : GoStr) (fs : List GoStr) (hr : splitUnderscore rest = f :: fs) :
    splitUnderscore (c :: rest) = (c :: f) :: fs := by
  have h1 : splitUnderscore (c :: rest) =
      (if c = '_' then [] :: splitUnderscore rest
       else
         match splitUnderscore rest with
         | [] => [[c]]
         | f :: fs => (c :: f) :: fs) := rfl
  rw [h1, if_neg hc, hr]

theorem splitUnderscore_append_le (a b : GoStr) :
    1 + (splitUnderscore b).length ≤ (splitUnderscore (a ++ '_' :: b)).length := by
  induction a with
  | nil =>
    simp only [List.nil_append]
    have h1 : splitUnderscore ('_' :: b) = [] :: splitUnderscore b := rfl
    rw [h1, List.length_cons]
    omega
  | cons c a2 ih =>
    by_cases hc : c = '_'
    · subst hc
      have h1 : splitUnderscore (('_' :: a2) ++ '_' :: b) =
          [] :: splitUnderscore (a2 ++ '_' :: b) := rfl
      rw [h1, List.length_cons]
      omega
    · cases hr : splitUnderscore (a2 ++ '_' :: b) with
      | nil => exact absurd hr (splitUnderscore_ne_nil _)
      | cons f fs =>
        have h2 := splitUnderscore_cons_ne c (a2 ++ '_' :: b) hc f fs hr
        rw [List.cons_append, h2]
        rw [hr] at ih
        simp only [List.length_cons] at ih ⊢
        omega

/-- Rendering always yields at least four underscore-separated fields. -/
theorem toString_field_count (m : ObjMeta) :
    4 ≤ (splitUnderscore (ObjMeta.toString m)).length := by
  unfold ObjMeta.toString
  have h1 : (splitUnderscore m.groupKind.kind).length ≠ 0 :=
    fun h => splitUnderscore_ne_nil _ (List.length_eq_zero.mp h)
  have h2 := splitUnderscore_append_le m.groupKind.group m.groupKind.kind
  have h3 := splitUnderscore_append_le m.name
    (m.groupKind.group ++ '_' :: m.groupKind.kind)
  have h4 := splitUnderscore_append_le m.ns
    (m.name ++ '_' :: (m.groupKind.group ++ '_' :: m.groupKind.kind))
  omega

/-! ## The identifier round-trip (claim C7) -/

/-- The identifier `createObjMetadata ns name ⟨g, k⟩` produces on
success: every field trimmed of surrounding whitespace. -/
def objMetaNorm (ns name g k : GoStr) : ObjMeta :=
  ⟨trimSpace ns, trimSpace name, trimGK ⟨g, k⟩⟩

/-- Claim C7 (amended): for every identifier created from fields whose
name and group-kind are non-empty after trimming surrounding whitespace
and none of whose fields contains an underscore, creation succeeds with
the trimmed identifier and parsing its rendered form
`namespace_name_group_kind` returns that identifier; rendering always
yields at least four underscore-separated fields, and parsing succeeds
only on strings with exactly four underscore-separated fields whose name
and group-kind are non-empty after trim. -/
theorem c7_parse_render_roundtrip (ns name g k : GoStr)
    (hname : (trimSpace name).isEmpty = false)
    (hgk : (trimGK ⟨g, k⟩).emptyGK = false)
    (hns : noU ns) (hnm : noU name) (hg : noU g) (hk : noU k) :
    createObjMetadata ns name ⟨g, k⟩ = Except.ok (objMetaNorm ns name g k) ∧
    parseObjMetadata (ObjMeta.toString (objMetaNorm ns name g k)) =
      Except.ok (objMetaNorm ns name g k) ∧
    (∀ m : ObjMeta, 4 ≤ (splitUnderscore (ObjMeta.toString m)).length) ∧
    (∀ s m, parseObjMetadata s = Except.ok m →
      (splitUnderscore s).length = 4 ∧
      (trimSpace m.name).isEmpty = false ∧ m.groupKind.emptyGK = false) := by
  refine ⟨?_, ?_, fun m => toString_field_count m, ?_⟩
  · simp [createObjMetadata, hname, hgk, objMetaNorm]
  · have hns2 : noU (trimSpace ns) := noU_trimSpace hns
    have hnm2 : noU (trimSpace name) := noU_trimSpace hnm
    have hg2 : noU (trimSpace g) := noU_trimSpace hg
    have hk2 : noU (trimSpace k) := noU_trimSpace hk
    have hsplit : splitUnderscore (ObjMeta.toString (objMetaNorm ns name g k)) =
        [trimSpace ns, trimSpace name, trimSpace g, trimSpace k] := by
      show splitUnderscore
          (trimSpace ns ++ '_' :: (trimSpace name ++ '_' ::
            (trimSpace g ++ '_' :: trimSpace k))) = _
      rw [splitUnderscore_append _ _ hns2, splitUnderscore_append _ _ hnm2,
          splitUnderscore_append _ _ hg2, splitUnderscore_of_noU _ hk2]
    have hcreate : createObjMetadata (trimSpace ns) (trimSpace name)
        ⟨trimSpace g, trimSpace k⟩ = Except.ok (objMetaNorm ns name g k) := by
      have hgk2 : (GroupKind.mk (trimSpace g) (trimSpace k)).emptyGK = false := hgk
      have hne : trimSpace name ≠ [] := by
        intro hcontra
        rw [hcontra] at hname
        simp at hname
      simp [createObjMetadata, hne, hgk2, objMetaNorm, trimGK, trimSpace_idem]
    calc parseObjMetadata (ObjMeta.toString (objMetaNorm ns name g k))
        = createObjMetadata (trimSpace ns) (trimSpace name)
            ⟨trimSpace g, trimSpace k⟩ := by
          unfold parseObjMetadata
          rw [hsplit]
      _ = Except.ok (objMetaNorm ns name g k) := hcreate
  · intro s m h
    unfold parseObjMetadata at h
    split at h
    · rename_i nsF nameF groupF kindF heq
      unfold createObjMetadata at h
      split at h
      · exact absurd h (by simp)
      · split at h
        · exact absurd h (by simp)
        · rename_i hn hgk3
          simp only [Bool.not_eq_true] at hn hgk3
          simp only [Except.ok.injEq] at h
          subst h
          refine ⟨by rw [heq]; rfl, ?_, ?_⟩
          · show (trimSpace (trimSpace nameF)).isEmpty = false
            rw [trimSpace_idem]
            exact hn
          · exact hgk3
    · exact absurd h (by simp)

/-- Claim C7 counterexample: an identifier whose (non-empty, trimmed)
name contains an underscore renders to five underscore-separated fields,
which parsing rejects, so `parse(render(id)) == id` fails as stated. -/
theorem c7_underscore_breaks_roundtrip :
    createObjMetadata [] ['a', '_', 'b'] ⟨['g'], ['K']⟩ =
      Except.ok ⟨[], ['a', '_', 'b'], ⟨['g'], ['K']⟩⟩ ∧
    (trimSpace ['a', '_', 'b']).isEmpty = false ∧
    ObjMeta.toString ⟨[], ['a', '_', 'b'], ⟨['g'], ['K']⟩⟩ =
      ['_', 'a', '_', 'b', '_', 'g', '_', 'K'] ∧
    parseObjMetadata (ObjMeta.toString ⟨[], ['a', '_', 'b'], ⟨['g'], ['K']⟩⟩) =
      Except.error "unable to decode inventory string" := by
  refine ⟨?_, ?_, ?_, ?_⟩ <;> rfl

/-- Witness: the round-trip theorem applied to a concrete identifier
with whitespace-padded fields and no underscores. -/
theorem c7_parse_render_roundtrip_witness :
    createObjMetadata [' ', 'n', 's'] ['n', 'm', '\t'] ⟨['a'], ['R']⟩ =
      Except.ok (objMetaNorm [' ', 'n', 's'] ['n', 'm', '\t'] ['a'] ['R']) ∧
    parseObjMetadata (ObjMeta.toString
        (objMetaNorm [' ', 'n', 's'] ['n', 'm', '\t'] ['a'] ['R'])) =
      Except.ok (objMetaNorm [' ', 'n', 's'] ['n', 'm', '\t'] ['a'] ['R']) := by
  have h := c7_parse_render_roundtrip [' ', 'n', 's'] ['n', 'm', '\t'] ['a'] ['R']
    (by decide) (by decide) (by decide) (by decide) (by decide) (by decide)
  exact ⟨h.1, h.2.1⟩

/-! ## Concrete runs used by counterexamples and witnesses -/

/-- A plain namespaced Deployment resource. -/
def metaPlain : ObjMeta :=
  ⟨"default".toList, "foo".toList, ⟨"apps".toList, "Deployment".toList⟩⟩

/-- The grouping object's identifier. -/
def metaGroup : ObjMeta :=
  ⟨"default".toList, "inventory".toList, ⟨[], "ConfigMap".toList⟩⟩

/-- The plain resource's info. -/
def infoPlain : Info := ⟨metaPlain, true, false, []⟩

/-- The grouping-object template's info. -/
def infoGroup : Info := ⟨metaGroup, true, true, []⟩

/-- A second grouping-object template (for the multiple-templates error). -/
def infoGroup2 : Info :=
  ⟨⟨"default".toList, "inventory2".toList, ⟨[], "ConfigMap".toList⟩⟩, true, true, []⟩

/-- The grouping object as prepared from `infoGroup` with `infoPlain`
recorded in its inventory. -/
def groupingPrepared : Info := ⟨metaGroup, true, true, [metaPlain]⟩

/-- A configuration with wait requested and prune not suppressed. -/
def cfgWaitPrune : ApplierConfig := ⟨true, 30, false⟩

/-- The identity ordering for the plain resources. -/
def idSort : List Info → List Info := fun l => l

/-- A wait-enabled queue used by the cancellation run. -/
def c1Queue : List Task :=
  [Task.applyTask [infoPlain], Task.sendEvent applyCompletedEvent,
   Task.waitTask [metaPlain] Condition.allCurrent 30,
   Task.sendEvent statusCompletedEvent]

/-- The cancellation run up to (and including) the context-done firing:
apply completes, the apply-completed emit completes (starting the wait
task), then the caller's context is cancelled. -/
def c1Partial : LoopResult :=
  baseRunnerRun (newCollector [metaPlain]) c1Queue
    [LoopInput.taskDone none, LoopInput.taskDone none, LoopInput.ctxDone]

/-- The same run after the force-completed wait task posts its nil
result. -/
def c1Full : LoopResult :=
  baseRunnerRun (newCollector [metaPlain]) c1Queue
    [LoopInput.taskDone none, LoopInput.taskDone none, LoopInput.ctxDone,
     LoopInput.taskDone none]

/-! ## Claims about the runner loop -/

/-- Claim C1: on caller cancellation with a task in flight the runner
loop sets its abort state, force-completes the in-flight wait task
(`posts = 1`), and keeps running until the current task's completion
arrives (`outcome = none` before it, `some` after); it emits no error
event.  However the code leaves `abortReason` at nil on this path, so
the run returns nil (`some none`) instead of the context's cancellation
error — the divergence that makes this claim a code bug. -/
theorem c1_cancellation_returns_nil :
    c1Partial.outcome = none ∧
    c1Partial.final.map RunnerState.abort = some true ∧
    c1Partial.final.map RunnerState.abortReason = some none ∧
    c1Partial.posts = 1 ∧
    c1Full.outcome = some none ∧
    c1Full.events = [applyCompletedEvent] := by
  refine ⟨?_, ?_, ?_, ?_, ?_, ?_⟩ <;> rfl

/-- Claim C5: a poller error observation in a non-aborted loop sets the
abort state with a reason wrapping the poller error, forwards nothing,
and posts a completion exactly when the current task is a wait task;
once aborted, further status observations are ignored entirely; and a
clean completion of the current task in the abort state returns the
stored abort reason. -/
theorem c5_poller_error_aborts (st : RunnerState) (e : PollEvent) :
    (st.abort = false → e.eventType = PollEventType.errorEvent →
      runStep st (LoopInput.statusEvt e) =
        StepOut.cont
          { st with abort := true,
                    abortReason := some (GoError.pollingFailed e.errText) }
          [] (isWaitTask st.currentTask)) ∧
    (st.abort = true →
      runStep st (LoopInput.statusEvt e) = StepOut.cont st [] false) ∧
    (st.abort = true →
      runStep st (LoopInput.taskDone none) = StepOut.finished st.abortReason) := by
  refine ⟨?_, ?_, ?_⟩
  · intro h1 h2
    simp [runStep, h1, h2]
  · intro h1
    simp [runStep, h1]
  · intro h1
    simp [runStep, h1]

/-- Witness for C5 at a concrete state whose current task is a wait
task. -/
theorem c5_poller_error_aborts_witness :
    runStep
        ⟨Task.waitTask [metaPlain] Condition.allCurrent 30, [], false, none,
         true, newCollector [metaPlain], []⟩
        (LoopInput.statusEvt ⟨PollEventType.errorEvent, none, "boom"⟩) =
      StepOut.cont
        ⟨Task.waitTask [metaPlain] Condition.allCurrent 30, [], true,
         some (GoError.pollingFailed "boom"), true, newCollector [metaPlain], []⟩
        [] true ∧
    runStep
        ⟨Task.waitTask [metaPlain] Condition.allCurrent 30, [], true,
         some (GoError.pollingFailed "boom"), true, newCollector [metaPlain], []⟩
        (LoopInput.statusEvt
          ⟨PollEventType.resourceUpdateEvent,
           some ⟨metaPlain, RStatus.current⟩, ""⟩) =
      StepOut.cont
        ⟨Task.waitTask [metaPlain] Condition.allCurrent 30, [], true,
         some (GoError.pollingFailed "boom"), true, newCollector [metaPlain], []⟩
        [] false ∧
    runStep
        ⟨Task.waitTask [metaPlain] Condition.allCurrent 30, [], true,
         some (GoError.pollingFailed "boom"), true, newCollector [metaPlain], []⟩
        (LoopInput.taskDone none) =
      StepOut.finished (some (GoError.pollingFailed "boom")) := by
  refine ⟨?_, ?_, ?_⟩
  · exact (c5_poller_error_aborts _
      ⟨PollEventType.errorEvent, none, "boom"⟩).1 rfl rfl
  · exact (c5_poller_error_aborts _
      ⟨PollEventType.resourceUpdateEvent,
        some ⟨metaPlain, RStatus.current⟩, ""⟩).2.1 rfl
  · exact (c5_poller_error_aborts _
      ⟨PollEventType.errorEvent, none, "boom"⟩).2.2 rfl

/-- Claim C6: a wait task at the head of the queue whose condition is
already met against the collector is kicked off with
`startAndComplete`; a wait task whose condition is not yet met, and
every non-wait task, is started with `Start`. -/
theorem c6_wait_short_circuit (c : Collector) (q : List Task)
    (ids : List ObjMeta) (cond : Condition) (timeout : Nat) (t : Task) :
    (conditionMet c ids cond = true →
      nextTask c (Task.waitTask ids cond timeout :: q) =
        (some (Task.waitTask ids cond timeout, StartMode.shortCircuit, []), q)) ∧
    (conditionMet c ids cond = false →
      nextTask c (Task.waitTask ids cond timeout :: q) =
        (some (Task.waitTask ids cond timeout, StartMode.normalStart, []), q)) ∧
    (isWaitTask t = false →
      nextTask c (t :: q) = (some (t, StartMode.normalStart, startEvents t), q)) := by
  refine ⟨?_, ?_, ?_⟩
  · intro h
    simp [nextTask, h]
  · intro h
    simp [nextTask, h]
  · intro h
    cases t with
    | waitTask ids2 cond2 timeout2 => simp [isWaitTask] at h
    | applyTask objs => rfl
    | pruneTask objs => rfl
    | sendEvent e => rfl

/-- Witness for C6: a met wait condition short-circuits; an unmet one
and a send-event task use `Start`. -/
theorem c6_wait_short_circuit_witness :
    nextTask [(metaPlain, RStatus.current)]
        [Task.waitTask [metaPlain] Condition.allCurrent 30] =
      (some (Task.waitTask [metaPlain] Condition.allCurrent 30,
        StartMode.shortCircuit, []), []) ∧
    nextTask (newCollector [metaPlain])
        [Task.waitTask [metaPlain] Condition.allCurrent 30] =
      (some (Task.waitTask [metaPlain] Condition.allCurrent 30,
        StartMode.normalStart, []), []) ∧
    nextTask (newCollector [metaPlain]) [Task.sendEvent applyCompletedEvent] =
      (some (Task.sendEvent applyCompletedEvent, StartMode.normalStart,
        [applyCompletedEvent]), []) := by
  refine ⟨?_, ?_, ?_⟩
  · exact (c6_wait_short_circuit _ _ _ _ _ (Task.sendEvent applyCompletedEvent)).1
      (by decide)
  · exact (c6_wait_short_circuit _ _ _ _ _ (Task.sendEvent applyCompletedEvent)).2.1
      (by decide)
  · exact (c6_wait_short_circuit _ [] [metaPlain] Condition.allCurrent 30 _).2.2 rfl

/-- Claim C10: a task completion carrying an error makes the runner
return that error — regardless of, and in preference to, any stored
abort reason — while a clean completion in the abort state returns the
stored abort reason. -/
theorem c10_task_error_precedence (st : RunnerState) (e : GoError) :
    runStep st (LoopInput.taskDone (some e)) = StepOut.finished (some e) ∧
    (st.abort = true →
      runStep st (LoopInput.taskDone none) = StepOut.finished st.abortReason) := by
  refine ⟨rfl, ?_⟩
  intro h
  simp [runStep, h]

/-- Witness for C10 at an aborted state whose stored reason differs from
the task's own error. -/
theorem c10_task_error_precedence_witness :
    runStep
        ⟨Task.applyTask [infoPlain], [], true,
         some (GoError.pollingFailed "poller"), true, newCollector [metaPlain], []⟩
        (LoopInput.taskDone (some (GoError.taskError "apply failed"))) =
      StepOut.finished (some (GoError.taskError "apply failed")) ∧
    runStep
        ⟨Task.applyTask [infoPlain], [], true,
         some (GoError.pollingFailed "poller"), true, newCollector [metaPlain], []⟩
        (LoopInput.taskDone none) =
      StepOut.finished (some (GoError.pollingFailed "poller")) := by
  refine ⟨?_, ?_⟩
  · exact (c10_task_error_precedence _ (GoError.taskError "apply failed")).1
  · exact (c10_task_error_precedence _ (GoError.taskError "apply failed")).2 rfl

/-! ## Claims about the task queue construction -/

/-- Claim C2: `buildTaskQueue` produces exactly the fixed queue — an
apply task over all infos then the apply-completed emit; a wait task
(condition `AllCurrent`, user-supplied timeout) then the
status-completed emit iff wait is requested; a prune task then the
prune-completed emit iff prune is not suppressed; nothing else.  The Go
function places this list into a buffered channel before execution
starts, so the queue is fixed up front. -/
theorem c2_task_queue_shape (cfg : ApplierConfig) (infos : List Info)
    (identifiers : List ObjMeta) :
    buildTaskQueue cfg infos identifiers =
      [Task.applyTask infos, Task.sendEvent applyCompletedEvent] ++
      (if cfg.wait then
        [Task.waitTask identifiers Condition.allCurrent cfg.timeout,
         Task.sendEvent statusCompletedEvent]
       else []) ++
      (if cfg.noPrune then []
       else [Task.pruneTask infos, Task.sendEvent pruneCompletedEvent]) := by
  cases cfg with
  | mk wait timeout noPrune => cases wait <;> cases noPrune <;> rfl

/-! ## Claims about reading and preparing objects -/

/-- Claim C3: zero grouping templates fail with the no-grouping-object
input error and more than one fail with the multiple-grouping-objects
error carrying the conflicting templates; in both cases the run's stream
is a single error event (no init and no apply events); and a successful
preparation returns the grouping object first. -/
theorem c3_grouping_uniqueness (sortResources : List Info → List Info)
    (cfg : ApplierConfig) (inputs : List LoopInput) (infos : List Info) :
    ((splitInfos infos).2 = [] →
      readAndPrepareObjects sortResources (Except.ok infos) =
        Except.error GoError.noGroupingObj ∧
      applierRun sortResources (Except.ok infos) cfg inputs =
        [Event.errorEvt (GoError.wrapped "error reading resources"
          GoError.noGroupingObj)]) ∧
    (∀ g1 g2 gs, (splitInfos infos).2 = g1 :: g2 :: gs →
      readAndPrepareObjects sortResources (Except.ok infos) =
        Except.error (GoError.multipleGroupingObj (g1 :: g2 :: gs)) ∧
      applierRun sortResources (Except.ok infos) cfg inputs =
        [Event.errorEvt (GoError.wrapped "error reading resources"
          (GoError.multipleGroupingObj (g1 :: g2 :: gs)))]) ∧
    (∀ prepared, readAndPrepareObjects sortResources (Except.ok infos) =
        Except.ok prepared →
      prepared.head?.map Info.isGroupingObject = some true) := by
  refine ⟨?_, ?_, ?_⟩
  · intro h
    have h1 : readAndPrepareObjects sortResources (Except.ok infos) =
        Except.error GoError.noGroupingObj := by
      simp only [readAndPrepareObjects]
      rw [h]
    refine ⟨h1, ?_⟩
    simp only [applierRun, h1]
  · intro g1 g2 gs h
    have h1 : readAndPrepareObjects sortResources (Except.ok infos) =
        Except.error (GoError.multipleGroupingObj (g1 :: g2 :: gs)) := by
      simp only [readAndPrepareObjects]
      rw [h]
    refine ⟨h1, ?_⟩
    simp only [applierRun, h1]
  · intro prepared h
    simp only [readAndPrepareObjects] at h
    split at h
    · exact absurd h (by simp)
    · exact absurd h (by simp)
    · rename_i got heq
      split at h
      · exact absurd h (by simp)
      · rename_i hv
        simp only [Except.ok.injEq] at h
        subst h
        have hmem : got ∈ infos.filter (fun i => i.isGroupingObject) := by
          have h2 : got ∈ (splitInfos infos).2 := by
            rw [heq]; exact List.mem_cons_self _ _
          simpa [splitInfos] using h2
        have hpred := (List.mem_filter.mp hmem).2
        simp only [decide_eq_true_eq] at hpred
        simp [createGroupingObj, hpred]

/-- Witness for C3: zero templates, two templates, and the successful
run's grouping-first result, each at concrete input. -/
theorem c3_grouping_uniqueness_witness :
    readAndPrepareObjects idSort (Except.ok [infoPlain]) =
      Except.error GoError.noGroupingObj ∧
    readAndPrepareObjects idSort (Except.ok [infoGroup, infoGroup2]) =
      Except.error (GoError.multipleGroupingObj [infoGroup, infoGroup2]) ∧
    ([groupingPrepared, infoPlain] : List Info).head?.map Info.isGroupingObject =
      some true := by
  refine ⟨?_, ?_, ?_⟩
  · exact ((c3_grouping_uniqueness idSort cfgWaitPrune [] [infoPlain]).1 rfl).1
  · exact ((c3_grouping_uniqueness idSort cfgWaitPrune []
      [infoGroup, infoGroup2]).2.1 infoGroup infoGroup2 [] rfl).1
  · exact (c3_grouping_uniqueness idSort cfgWaitPrune []
      [infoGroup, infoPlain]).2.2 [groupingPrepared, infoPlain] rfl

/-! ## Claims about the wait task's identifier set -/

/-- Claim C4 counterexample: on a run with one grouping template and one
plain resource (wait requested), the identifier list handed to the wait
task is `infosToObjMetas` of the entire prepared slice, which contains
the grouping object's identifier — the wait set is not restricted to the
non-grouping objects. -/
theorem c4_grouping_id_in_wait_ids :
    readAndPrepareObjects idSort (Except.ok [infoGroup, infoPlain]) =
      Except.ok [groupingPrepared, infoPlain] ∧
    groupingPrepared.isGroupingObject = true ∧
    infosToObjMetas [groupingPrepared, infoPlain] = [metaGroup, metaPlain] ∧
    (buildTaskQueue cfgWaitPrune [groupingPrepared, infoPlain]
        (infosToObjMetas [groupingPrepared, infoPlain])).get? 2 =
      some (Task.waitTask [metaGroup, metaPlain] Condition.allCurrent 30) ∧
    groupingPrepared.meta ∈ ([metaGroup, metaPlain] : List ObjMeta) := by
  refine ⟨rfl, rfl, rfl, rfl, by decide⟩

/-- Claim C4 (amended): for every run with wait requested, the
identifier list handed to the wait task (the third task of the queue) is
exactly `infosToObjMetas` of the whole prepared slice — the identifiers
of all applied objects, the grouping object included. -/
theorem c4_wait_ids_all_prepared (cfg : ApplierConfig) (hw : cfg.wait = true)
    (infos : List Info) :
    (buildTaskQueue cfg infos (infosToObjMetas infos)).get? 2 =
      some (Task.waitTask (infosToObjMetas infos) Condition.allCurrent
        cfg.timeout) ∧
    infosToObjMetas infos = infos.map Info.meta := by
  cases cfg with
  | mk wait2 timeout2 noPrune2 =>
    dsimp only at hw
    subst hw
    exact ⟨by cases noPrune2 <;> rfl, rfl⟩

/-- Witness for C4's amended statement at the concrete prepared slice. -/
theorem c4_wait_ids_all_prepared_witness :
    (buildTaskQueue cfgWaitPrune [groupingPrepared, infoPlain]
        (infosToObjMetas [groupingPrepared, infoPlain])).get? 2 =
      some (Task.waitTask (infosToObjMetas [groupingPrepared, infoPlain])
        Condition.allCurrent cfgWaitPrune.timeout) :=
  (c4_wait_ids_all_prepared cfgWaitPrune rfl [groupingPrepared, infoPlain]).1

/-! ## Claims about the output stream shape -/

/-- Claim C9 counterexample: a run whose input has no grouping object
emits exactly one event — an error event — so the first event of this
non-empty run is not Init. -/
theorem c9_error_first_without_init :
    applierRun idSort (Except.ok [infoPlain]) cfgWaitPrune [] =
      [Event.errorEvt (GoError.wrapped "error reading resources"
        GoError.noGroupingObj)] ∧
    Event.isInit (Event.errorEvt (GoError.wrapped "error reading resources"
      GoError.noGroupingObj)) = false := ⟨rfl, rfl⟩

/-- Claim C9 (amended): on every run whose input preparation succeeds the
first event emitted is the Init event, so every other event appears only
after it; runs whose preparation fails instead start (and end) with the
error event. -/
theorem c9_init_first_on_prepared (sortResources : List Info → List Info)
    (getObjects : Except GoError (List Info)) (cfg : ApplierConfig)
    (inputs : List LoopInput) (infos : List Info)
    (h : readAndPrepareObjects sortResources getObjects = Except.ok infos) :
    (applierRun sortResources getObjects cfg inputs).head? =
      some (Event.initEvt [⟨ActionType.applyAction, infosToObjMetas infos⟩]) := by
  simp only [applierRun, h]
  rfl

/-- Witness for C9's amended statement at a concrete successful run. -/
theorem c9_init_first_witness :
    (applierRun idSort (Except.ok [infoGroup, infoPlain]) cfgWaitPrune []).head? =
      some (Event.initEvt [⟨ActionType.applyAction,
        infosToObjMetas [groupingPrepared, infoPlain]⟩]) :=
  c9_init_first_on_prepared idSort (Except.ok [infoGroup, infoPlain])
    cfgWaitPrune [] [groupingPrepared, infoPlain] rfl

/-- The event stream of a run with wait and prune configured that is
cancelled while the wait task is in flight. -/
def c8Trace : List Event :=
  applierRun idSort (Except.ok [infoGroup, infoPlain]) cfgWaitPrune
    [LoopInput.taskDone none, LoopInput.taskDone none, LoopInput.ctxDone,
     LoopInput.taskDone none]

/-- Claim C8: the cancellation code bug also breaks the single-terminal
guarantee — this cancelled run's stream closes carrying neither all
planned phase-completion events (status- and prune-completed are
missing) nor any error event. -/
theorem c8_cancelled_run_lacks_terminal :
    c8Trace = [Event.initEvt [⟨ActionType.applyAction, [metaGroup, metaPlain]⟩],
      applyCompletedEvent] ∧
    c8Trace.all (fun e => !(Event.isError e)) = true ∧
    statusCompletedEvent ∉ c8Trace ∧
    pruneCompletedEvent ∉ c8Trace := by
  refine ⟨rfl, rfl, by decide, by decide⟩

end CliUtils
